import Mathlib

/-
Verification development for the dlrs data-dump ingestion pipeline.

The Rust sources are shallowly embedded below:
- src/sql_utils.rs : the record-to-relational codec (sanitize_key, the
  statement-generating Serializer behind to_init_table, and the Binder
  behind bind_stmt);
- src/test.rs      : to_pascal_case (the reverse column-name mapping);
- src/se_struct.rs : the enum-like field kinds (BadgeClass as representative);
- src/main.rs      : table_exists, the do_load_se_file macro of the Parse
  stage, the download stage, the unzip stage, and the job scheduler of main.

Machine integers are modelled as Nat/Int (the record fields in the source
use i64/i16/u8/u32, all of which embed into i64 without wrapping on the
paths exercised here).  An f64 is carried as its decimal text form, which
is the only way the codec ever consumes it (type tag and to_string).
Fallible operations return Except.  External effects (the sqlite store,
the filesystem, the HTTP transport) are passed in explicitly as data.
-/

namespace Dlrs

/-! ### ASCII character helpers (Rust char::is_ascii_uppercase etc.) -/

/-- Rust is_ascii_uppercase. -/
def isAsciiUpper (c : Char) : Bool := 65 ≤ c.toNat && c.toNat ≤ 90

/-- Rust is_ascii_lowercase. -/
def isAsciiLower (c : Char) : Bool := 97 ≤ c.toNat && c.toNat ≤ 122

/-- Rust is_ascii_digit. -/
def isAsciiDigit (c : Char) : Bool := 48 ≤ c.toNat && c.toNat ≤ 57

/-- ASCII letter or digit. -/
def isAsciiAlnum (c : Char) : Bool := isAsciiUpper c || isAsciiLower c || isAsciiDigit c

/-- Rust char::to_lowercase restricted to the guarded ASCII-uppercase case
(the only case sanitize_key applies it to): add 32. -/
def asciiLower (c : Char) : Char := if isAsciiUpper c then Char.ofNat (c.toNat + 32) else c

/-- Rust u8::to_ascii_uppercase: subtract 32 on ASCII lowercase. -/
def asciiUpper (c : Char) : Char := if isAsciiLower c then Char.ofNat (c.toNat - 32) else c

/-! ### Column-name codec

sanitize_key comes from src/sql_utils.rs: drop every at-sign, then lower
each ASCII capital, inserting an underscore before every capital except the
first capital seen (the first flag of the Rust closure is cleared only when
a capital is processed).

to_pascal_case comes from src/test.rs: prepend an at-sign, uppercase the
char at index 0, and replace each non-final underscore by uppercasing the
char that follows it.  The Rust loop walks bytes; on the ASCII names this
codec is used for, bytes and chars coincide, so the embedding walks chars. -/

/-- Body of the map in sanitize_key; the Bool is the first flag (true while
no capital has been seen yet). -/
def sanitizeAux : Bool → List Char → List Char
  | _, [] => []
  | first, c :: cs =>
    if isAsciiUpper c then
      if first then asciiLower c :: sanitizeAux false cs
      else '_' :: asciiLower c :: sanitizeAux false cs
    else c :: sanitizeAux first cs

/-- sanitize_key from src/sql_utils.rs. -/
def sanitize_key (key : List Char) : List Char :=
  sanitizeAux true (key.filter (fun c => c != '@'))

/-- sanitize_key lifted to String (field identifiers in the source are str). -/
def sanitizeKeyStr (key : String) : String := String.mk (sanitize_key key.data)

/-- Loop body of to_pascal_case; the Bool records whether we are at index 0. -/
def toPascalAux : Bool → List Char → List Char
  | _, [] => []
  | atStart, c :: cs =>
    if c = '_' ∧ cs ≠ [] then
      match cs with
      | d :: ds => asciiUpper d :: toPascalAux false ds
      | [] => []
    else if atStart then asciiUpper c :: toPascalAux false cs
    else c :: toPascalAux false cs

/-- to_pascal_case from src/test.rs. -/
def to_pascal_case (s : List Char) : List Char := '@' :: toPascalAux true s

/-- An attribute name of the at-PascalCase form: an at-sign followed by a
nonempty ASCII-alphanumeric word whose first character is a capital. -/
def isPascalAttr : List Char → Bool
  | a :: c :: cs => a == '@' && (isAsciiUpper c && (c :: cs).all isAsciiAlnum)
  | _ => false

/-! ### SqlValue and the serde-visible field values -/

/-- SqlValue from src/sql_utils.rs.  REAL carries the decimal text of the
f64, the only form in which the codec consumes it. -/
inductive SqlValue where
  | INTEGER : Int → SqlValue
  | REAL : String → SqlValue
  | TEXT : String → SqlValue
deriving Repr, DecidableEq

/-- The serde data-model values that the record types of src/se_struct.rs
actually feed to the two serializers: booleans, integers (i8 through i64,
u8 through u32), floats, strings (chars and dates serialize as strings),
options, and unit enum variants.  A unit variant reaches
serialize_unit_variant carrying its declared name and its positional
variant index. -/
inductive FieldValue where
  | vBool : Bool → FieldValue
  | vInt : Int → FieldValue
  | vReal : String → FieldValue
  | vStr : String → FieldValue
  | vNone : FieldValue
  | vSome : FieldValue → FieldValue
  | vUnitVariant : String → Nat → FieldValue
deriving Repr, DecidableEq

/-- A record instance: the ordered field sequence serde walks, each field a
(serde key, value) pair.  Keys are the renamed attribute names such as
the string at-Id. -/
abbrev Record := List (String × FieldValue)

/-- Value visit of the statement-generating Serializer of src/sql_utils.rs:
what sql_value is set to by each serialize_XXX method. -/
def serializeValue : FieldValue → SqlValue
  | .vBool true => SqlValue.TEXT "true"
  | .vBool false => SqlValue.TEXT "false"
  | .vInt v => SqlValue.INTEGER v
  | .vReal s => SqlValue.REAL s
  | .vStr s => SqlValue.TEXT s
  | .vNone => SqlValue.TEXT "NULL"
  | .vSome v => serializeValue v
  | .vUnitVariant name _ => SqlValue.TEXT name

/-- Value visit of the Binder of src/sql_utils.rs: the single string each
serialize_XXX method pushes onto output.  serialize_unit_variant calls
serialize_str on the variant name. -/
def bindValue : FieldValue → String
  | .vBool true => "true"
  | .vBool false => "false"
  | .vInt v => toString v
  | .vReal s => s
  | .vStr s => s
  | .vNone => "NULL"
  | .vSome v => bindValue v
  | .vUnitVariant name _ => name

/-- The keys vector accumulated by SerializeStruct::serialize_field of the
Serializer: one sanitized column name per field, in declaration order. -/
def tableKeys (r : Record) : List String := r.map (fun kv => sanitizeKeyStr kv.1)

/-- The values vector accumulated by SerializeStruct::serialize_field of the
Serializer: one SqlValue per field, in declaration order. -/
def tableValues (r : Record) : List SqlValue := r.map (fun kv => serializeValue kv.2)

/-- SQL type keyword chosen from the value in SerializeStruct::end. -/
def sqlTypeName : SqlValue → String
  | SqlValue.TEXT _ => "TEXT"
  | SqlValue.INTEGER _ => "INTEGER"
  | SqlValue.REAL _ => "REAL"

/-- One column definition of the CREATE statement, as formatted in
SerializeStruct::end: the id column is special-cased independently of the
value type. -/
def columnDef (columnName : String) (v : SqlValue) : String :=
  columnName ++ " " ++
    (if columnName == "id" then "INTEGER PRIMARY KEY UNIQUE" else sqlTypeName v)

/-- The column-definition list joined with commas inside the CREATE
statement (keys zipped with values, as in SerializeStruct::end). -/
def createColumns (r : Record) : List String :=
  ((tableKeys r).zip (tableValues r)).map (fun kv => columnDef kv.1 kv.2)

/-- The CREATE TABLE statement assembled by serialize_struct and
SerializeStruct::end. -/
def createStmt (r : Record) (tableName : String) : String :=
  "CREATE TABLE IF NOT EXISTS [" ++ tableName ++ "] (" ++
    String.intercalate "," (createColumns r) ++ ");"

/-- The placeholder list of the INSERT statement: one question mark per
entry of the values vector. -/
def insertPlaceholders (r : Record) : List String :=
  List.replicate (tableValues r).length "?"

/-- The INSERT statement assembled by serialize_struct and
SerializeStruct::end. -/
def insertStmt (r : Record) (tableName : String) : String :=
  "INSERT INTO [" ++ tableName ++ "] (" ++
    String.intercalate "," (tableKeys r) ++ ") VALUES (" ++
    String.intercalate "," (insertPlaceholders r) ++ ");"

/-- to_init_table from src/sql_utils.rs: the (create, insert) statement pair
generated from one record instance. -/
def to_init_table (r : Record) (tableName : String) : String × String :=
  (createStmt r tableName, insertStmt r tableName)

/-- bind_stmt from src/sql_utils.rs: the ordered positional binding vector,
one string per field (SerializeStruct::serialize_field of the Binder
appends exactly the output of the value visit). -/
def bind_stmt (r : Record) : List String := r.map (fun kv => bindValue kv.2)

/-! ### BadgeClass (src/se_struct.rs), representative enum-like field -/

/-- BadgeClass from src/se_struct.rs, declared with explicit discriminants
Gold = 1, Silver = 2, Bronze = 3. -/
inductive BadgeClass where
  | Gold
  | Silver
  | Bronze
deriving Repr, DecidableEq

/-- Declared numeric discriminant of each variant (the repr-u8 values). -/
def BadgeClass.discriminant : BadgeClass → Nat
  | .Gold => 1
  | .Silver => 2
  | .Bronze => 3

/-- Declared variant name. -/
def BadgeClass.variantName : BadgeClass → String
  | .Gold => "Gold"
  | .Silver => "Silver"
  | .Bronze => "Bronze"

/-- Positional variant index that the derived Serialize impl passes to
serialize_unit_variant (zero-based declaration order). -/
def BadgeClass.variantIndex : BadgeClass → Nat
  | .Gold => 0
  | .Silver => 1
  | .Bronze => 2

/-- What the derived Serialize impl of BadgeClass hands to a serializer:
serialize_unit_variant with the variant name and its positional index. -/
def BadgeClass.serializeField (c : BadgeClass) : FieldValue :=
  FieldValue.vUnitVariant c.variantName c.variantIndex

/-! ### Parse stage (src/main.rs: table_exists and do_load_se_file) -/

/-- table_exists from src/main.rs: the store is modelled by the list of
names in sqlite_master; the query answers whether the table name occurs. -/
def table_exists (tables : List String) (tableName : String) : Bool :=
  tables.contains tableName

/-- Observable outcome of one do_load_se_file expansion: how many rows were
inserted for the entity and whether the source file was opened. -/
structure LoadOutcome where
  rowsInserted : Nat
  fileOpened : Bool
deriving Repr, DecidableEq

/-- One expansion of the do_load_se_file macro of src/main.rs, for one
entity kind.  query is the result of the table_exists call (the sqlite
query itself can fail, hence Except).  The body runs only under the
if-let: only when the query succeeded AND answered false.  If the table
exists, or the query errored, the expansion is a no-op and the macro
falls through to the next entity.  When the body runs, a missing source
file is a bail; otherwise inject inserts one row per parsed record. -/
def do_load_se_file (query : Except String Bool) (fileExists : Bool)
    (records : List Record) : Except String LoadOutcome :=
  match query with
  | .ok false =>
    if fileExists then .ok ⟨records.length, true⟩
    else .error "file do not exists"
  | .ok true => .ok ⟨0, false⟩
  | .error _ => .ok ⟨0, false⟩

/-- The parse function of src/main.rs: the do_load_se_file expansions run
in sequence, each from its own query result, file presence and records;
the first bail aborts the stage. -/
def parseEntities (entities : List (Except String Bool × Bool × List Record)) :
    Except String (List LoadOutcome) :=
  entities.mapM (fun t => do_load_se_file t.1 t.2.1 t.2.2)

/-- Job state from src/main.rs. -/
inductive State where
  | Error : String → State
  | Wait : State
  | Downloading : Nat × Nat → State
  | Unzipping : Nat → State
  | Parsing : Nat × String → State
  | Done : State
deriving Repr, DecidableEq

/-- Job state process assigns after the parse stage returns (src/main.rs
process: an error branch tags the message, success falls through to Done). -/
def stateAfterParse (r : Except String (List LoadOutcome)) : State :=
  match r with
  | .ok _ => State.Done
  | .error e => State.Error ("parsing error: " ++ e)

/-! ### Download stage (src/main.rs download) -/

/-- The reqwest response as consumed by download: a status code (which the
code never reads), an optional content length, and the body chunk stream,
each item either a chunk of bytes or a mid-stream transport error. -/
structure HttpResponse where
  status : Nat
  contentLength : Option Nat
  chunks : List (Except String (List Nat))
deriving Repr

/-- Inputs of one download call: the job url, the outcome of sending the
GET request, and the size of the pre-existing local file if any. -/
structure DownloadEnv where
  url : String
  sendResult : Except String HttpResponse
  localSize : Option Nat
deriving Repr

/-- The chunk-writing loop of download: bytes written to the file in order,
and the error that aborted the loop, if any. -/
def streamAll : List (Except String (List Nat)) → List Nat × Option String
  | [] => ([], none)
  | .error _ :: _ => ([], some "Error while downloading file")
  | .ok c :: rest =>
    let r := streamAll rest
    (c ++ r.1, r.2)

/-- Observable result of one download call: the returned Result, how many
GET requests were sent, whether the body stream was consumed, and the
bytes written to a freshly created file (none when no file was created). -/
structure DownloadResult where
  outcome : Except String Unit
  getsSent : Nat
  bodyStreamed : Bool
  written : Option (List Nat)
deriving Repr

/-- download from src/main.rs.  An empty url returns at once (job found
locally).  The GET is sent before anything else; a transport failure or a
missing content length is an error.  If a local file exists whose size
equals the content length, download returns Ok without creating the file
and without consuming the body stream.  Otherwise the file is created and
the chunk loop runs, propagating any mid-stream error.  The status code of
the response is never examined. -/
def download (env : DownloadEnv) : DownloadResult :=
  if env.url = "" then ⟨.ok (), 0, false, none⟩
  else
    match env.sendResult with
    | .error _ => ⟨.error ("Failed to GET from " ++ env.url), 1, false, none⟩
    | .ok res =>
      match res.contentLength with
      | none => ⟨.error ("Failed to get content length from " ++ env.url), 1, false, none⟩
      | some len =>
        if env.localSize = some len then ⟨.ok (), 1, false, none⟩
        else
          let s := streamAll res.chunks
          match s.2 with
          | none => ⟨.ok (), 1, true, some s.1⟩
          | some e => ⟨.error e, 1, true, some s.1⟩

/-- Number of body downloads performed by one call. -/
def bodyGets (r : DownloadResult) : Nat := if r.bodyStreamed then 1 else 0

/-! ### Archive stage (src/main.rs unzip) -/

/-- One archive entry as enumerated by for_each_entries: name, declared
uncompressed size, and the bytes the entry reader yields. -/
structure SzEntry where
  name : String
  size : Nat
  content : List Nat
deriving Repr, DecidableEq

/-- The extraction filesystem: an association of paths to file bytes. -/
abbrev Fs := List (String × List Nat)

/-- Metadata lookup: the bytes of the file at a path, if it exists. -/
def lookupFile (fs : Fs) (p : String) : Option (List Nat) :=
  (fs.find? (fun kv => kv.1 == p)).map (fun kv => kv.2)

/-- File::create followed by writing all bytes: the path now maps to
exactly the given bytes. -/
def writeFile (fs : Fs) (p : String) (bytes : List Nat) : Fs :=
  (p, bytes) :: fs.filter (fun kv => kv.1 != p)

/-- Destination path of an entry: the dest directory joined with the entry
name. -/
def destPath (dest name : String) : String := dest ++ "/" ++ name

/-- The per-entry closure of unzip in src/main.rs: if a file already exists
at the destination with size equal to the declared entry size, return
early (keeping the filesystem untouched); otherwise create the file and
stream the entry bytes into it. -/
def unzipEntry (dest : String) (fs : Fs) (e : SzEntry) : Fs :=
  let path := destPath dest e.name
  match lookupFile fs path with
  | some bytes => if bytes.length = e.size then fs else writeFile fs path e.content
  | none => writeFile fs path e.content

/-- unzip from src/main.rs: fold the per-entry closure over the entries. -/
def unzip (dest : String) (entries : List SzEntry) (fs : Fs) : Fs :=
  entries.foldl (unzipEntry dest) fs

/-! ### Job scheduler (src/main.rs main)

The spawning loop of main pushes a task per job into a FuturesUnordered
collection and, whenever the collection holds max_threads tasks, awaits one
completion before pushing the next; after the loop it drains the collection
before returning.  Each spawned task runs process, which mutates only its
own job state and always stores Done or an Error message before returning.
The loop is modelled as a small-step transition system: spawn admits a new
job while a slot is free, work lets a running task move its job out of Wait
(stages only ever store Downloading, Unzipping, Parsing, Error or Done),
complete retires a task once its job state is terminal, and ret lets main
return once every job is spawned and retired. -/

/-- Terminal job states (no transition leaves Done or Error). -/
def State.isTerminal : State → Bool
  | .Done => true
  | .Error _ => true
  | _ => false

/-- A job holding a non-Wait, non-terminal state (actively downloading,
unzipping or parsing). -/
def State.isActive : State → Bool
  | .Wait => false
  | .Done => false
  | .Error _ => false
  | _ => true

/-- Scheduler state: per-job states, the set of spawned-but-uncompleted
task indices, the next manifest index to spawn, and whether main has
returned from the scheduling block. -/
structure Sched where
  jobs : List State
  inFlight : Finset Nat
  nextIdx : Nat
  returned : Bool

/-- One step of the scheduler of src/main.rs main, with concurrency bound
N (max_threads).  When N is at least one, spawn requires a free slot
because the loop awaits a completion whenever the collection reaches N
tasks before pushing again; when N is zero that len-equals-max_threads
check never fires (the collection holds at least one task at every
check), so every push is admitted and the jobs all run concurrently. -/
inductive SchedStep (N : Nat) : Sched → Sched → Prop where
  | spawn (s : Sched) (h1 : s.nextIdx < s.jobs.length)
      (h2 : s.inFlight.card < N ∨ N = 0) (h3 : s.returned = false) :
      SchedStep N s ⟨s.jobs, insert s.nextIdx s.inFlight, s.nextIdx + 1, false⟩
  | work (s : Sched) (j : Nat) (st : State) (hj : j ∈ s.inFlight)
      (hterm : (s.jobs.getD j State.Wait).isTerminal = false) (hst : st ≠ State.Wait) :
      SchedStep N s ⟨s.jobs.set j st, s.inFlight, s.nextIdx, s.returned⟩
  | complete (s : Sched) (j : Nat) (hj : j ∈ s.inFlight)
      (hterm : (s.jobs.getD j State.Wait).isTerminal = true) :
      SchedStep N s ⟨s.jobs, s.inFlight.erase j, s.nextIdx, s.returned⟩
  | ret (s : Sched) (h1 : s.nextIdx = s.jobs.length) (h2 : s.inFlight = ∅)
      (h3 : s.returned = false) :
      SchedStep N s ⟨s.jobs, s.inFlight, s.nextIdx, true⟩

/-- Reachability under the scheduler step relation. -/
inductive SchedReaches (N : Nat) : Sched → Sched → Prop where
  | refl (s : Sched) : SchedReaches N s s
  | tail (s t u : Sched) : SchedReaches N s t → SchedStep N t u → SchedReaches N s u

/-- Initial scheduler state for J manifest jobs: every job waits, nothing
spawned. -/
def initSched (J : Nat) : Sched := ⟨List.replicate J State.Wait, ∅, 0, false⟩

/-- The set of job indices currently holding a non-Wait, non-terminal
state. -/
def activeSet (s : Sched) : Finset Nat :=
  (Finset.range s.jobs.length).filter (fun j => (s.jobs.getD j State.Wait).isActive = true)

/-- Scheduler invariant: at most N tasks in flight when the bound is
positive (a zero bound never throttles), in-flight indices are spawned,
unspawned jobs still Wait, retired jobs terminal, and a returned
scheduler has spawned everything and retired everything. -/
def SchedInv (N : Nat) (s : Sched) : Prop :=
  (1 ≤ N → s.inFlight.card ≤ N) ∧
  (∀ j ∈ s.inFlight, j < s.nextIdx) ∧
  (∀ j, s.nextIdx ≤ j → s.jobs.getD j State.Wait = State.Wait) ∧
  (∀ j, j < s.nextIdx → j ∉ s.inFlight → (s.jobs.getD j State.Wait).isTerminal = true) ∧
  s.nextIdx ≤ s.jobs.length ∧
  (s.returned = true → s.nextIdx = s.jobs.length ∧ s.inFlight = ∅)

/-! ## Helper lemmas -/

/-- Char.ofNat on a scalar value below the surrogate range round-trips. -/
theorem toNat_ofNat_valid (n : Nat) (h : n < 55296) : (Char.ofNat n).toNat = n := by
  have hv : n.isValidChar := Or.inl h
  simp [Char.ofNat, hv]
  rfl

/-- Lowering an ASCII capital and re-uppercasing restores it. -/
theorem asciiUpper_asciiLower (c : Char) (h : isAsciiUpper c = true) :
    asciiUpper (asciiLower c) = c := by
  simp [isAsciiUpper] at h
  have h1 : (asciiLower c).toNat = c.toNat + 32 := by
    simp [asciiLower, isAsciiUpper, h.1, h.2]
    exact toNat_ofNat_valid _ (by omega)
  have h2 : isAsciiLower (asciiLower c) = true := by
    simp [isAsciiLower, h1]
    omega
  simp [asciiUpper, h2, h1]

/-- The lowered form of an ASCII capital is not an underscore. -/
theorem asciiLower_ne_underscore (c : Char) (h : isAsciiUpper c = true) :
    asciiLower c ≠ '_' := by
  simp [isAsciiUpper] at h
  have h1 : (asciiLower c).toNat = c.toNat + 32 := by
    simp [asciiLower, isAsciiUpper, h.1, h.2]
    exact toNat_ofNat_valid _ (by omega)
  intro he
  rw [he] at h1
  simp at h1
  omega

/-- An alphanumeric character is not an at-sign. -/
theorem alnum_ne_at (c : Char) (h : isAsciiAlnum c = true) : (c != '@') = true := by
  simp only [bne_iff_ne]
  intro he
  rw [he] at h
  exact absurd h (by decide)

/-- An alphanumeric character is not an underscore. -/
theorem alnum_ne_underscore (c : Char) (h : isAsciiAlnum c = true) : c ≠ '_' := by
  intro he
  rw [he] at h
  exact absurd h (by decide)

/-- Filtering the at-sign out of an alphanumeric word is the identity. -/
theorem filter_at_of_alnum (l : List Char) (h : l.all isAsciiAlnum = true) :
    l.filter (fun c => c != '@') = l := by
  induction l with
  | nil => rfl
  | cons c cs ih =>
    simp only [List.all_cons, Bool.and_eq_true] at h
    simp [List.filter, alnum_ne_at c h.1, ih h.2]

/-- Unfolding lemma for toPascalAux when the head is not an underscore. -/
theorem toPascalAux_cons_ne (b : Bool) (c : Char) (l : List Char) (hne : c ≠ '_') :
    toPascalAux b (c :: l) = (if b then asciiUpper c else c) :: toPascalAux false l := by
  cases l with
  | nil => cases b <;> simp [toPascalAux, hne]
  | cons d ds => cases b <;> simp [toPascalAux, hne]

/-- Unfolding lemma for toPascalAux at a non-final underscore. -/
theorem toPascalAux_underscore (b : Bool) (d : Char) (ds : List Char) :
    toPascalAux b ('_' :: d :: ds) = asciiUpper d :: toPascalAux false ds := by
  cases b <;> simp [toPascalAux]

/-- Main round-trip engine: past the first capital, lowering with
underscore insertion and pascalizing are mutually inverse on an
alphanumeric tail. -/
theorem pascal_sanitize_aux (l : List Char) (h : l.all isAsciiAlnum = true) :
    toPascalAux false (sanitizeAux false l) = l := by
  induction l with
  | nil => rfl
  | cons c cs ih =>
    simp only [List.all_cons, Bool.and_eq_true] at h
    by_cases hu : isAsciiUpper c = true
    · rw [show sanitizeAux false (c :: cs) = '_' :: asciiLower c :: sanitizeAux false cs by
        simp [sanitizeAux, hu]]
      rw [toPascalAux_underscore]
      rw [asciiUpper_asciiLower c hu, ih h.2]
    · rw [show sanitizeAux false (c :: cs) = c :: sanitizeAux false cs by
        simp [sanitizeAux, hu]]
      rw [toPascalAux_cons_ne false c (sanitizeAux false cs) (alnum_ne_underscore c h.1)]
      simp [ih h.2]

/-! ## Claim theorems -/

/-- C1: for every entity kind of a job, if the table named
site_EntityKind already exists in the store when the Parse stage runs,
the do_load_se_file expansion for that entity inserts zero rows and does
not open the corresponding source file. -/
theorem C1_table_present_skips_entity (tables : List String) (tableName : String)
    (fileExists : Bool) (records : List Record)
    (h : table_exists tables tableName = true) :
    do_load_se_file (.ok (table_exists tables tableName)) fileExists records =
      .ok ⟨0, false⟩ := by
  rw [h]
  rfl

/-- Witness for C1: a store already holding acme_Badge makes the Badge
expansion a no-op even though the file exists and holds a record. -/
theorem C1_witness :
    table_exists ["acme_Badge"] "acme_Badge" = true ∧
    do_load_se_file (.ok (table_exists ["acme_Badge"] "acme_Badge")) true
      [[("@Id", FieldValue.vInt 1)]] = .ok ⟨0, false⟩ :=
  ⟨by decide, C1_table_present_skips_entity ["acme_Badge"] "acme_Badge" true
    [[("@Id", FieldValue.vInt 1)]] (by decide)⟩

/-- C10: if the table-existence query itself errors, the do_load_se_file
expansion silently skips the entity: zero rows, file never opened, no
error propagated, and a job whose parse stage consists of such entities
still ends Done. -/
theorem C10_query_error_silent_skip (e : String) (fileExists : Bool)
    (records : List Record) :
    do_load_se_file (.error e) fileExists records = .ok ⟨0, false⟩ ∧
    stateAfterParse (parseEntities [(.error e, fileExists, records)]) = State.Done := by
  exact ⟨rfl, rfl⟩

/-- C2 counterexample: a response with status 404 (outside 200 and 206)
whose body is readable does not fail the download; the claim that any
status outside that set is fatal is false of the code. -/
theorem C2_counterexample :
    ((404 : Nat) ∈ ([200, 206] : List Nat) → False) ∧
    (download ⟨"http://example.test/acme.7z",
        .ok ⟨404, some 3, [.ok [1, 2, 3]]⟩, some 3⟩).outcome = .ok () := by
  exact ⟨by decide, rfl⟩

/-- C2 amended: the Download stage fails on any transport error, and the
HTTP status code of the response is never examined, so a status outside
200 and 206 does not by itself fail the job. -/
theorem C2_download_failure_amended (url e : String) (ls cl : Option Nat)
    (ch : List (Except String (List Nat))) (s1 s2 : Nat)
    (hurl : url ≠ "") :
    (download ⟨url, .error e, ls⟩).outcome = .error ("Failed to GET from " ++ url) ∧
    download ⟨url, .ok ⟨s1, cl, ch⟩, ls⟩ = download ⟨url, .ok ⟨s2, cl, ch⟩, ls⟩ := by
  constructor
  · simp [download, hurl]
  · simp [download]

/-- Witness for C2 amended: concrete transport failure and a concrete pair
of statuses. -/
theorem C2_witness :
    (download ⟨"u", .error "boom", none⟩).outcome = .error ("Failed to GET from " ++ "u") ∧
    download ⟨"u", .ok ⟨404, some 1, []⟩, none⟩ =
      download ⟨"u", .ok ⟨200, some 1, []⟩, none⟩ :=
  ⟨(C2_download_failure_amended "u" "boom" none (some 1) [] 404 200 (by decide)).1,
   (C2_download_failure_amended "u" "boom" none (some 1) [] 404 200 (by decide)).2⟩

/-- C3 counterexample: binding a Badge record whose class field is Gold
pushes the variant name Gold, not the declared discriminant 1, so the
bound value is not the integral discriminant. -/
theorem C3_counterexample :
    bind_stmt [("@Class", BadgeClass.serializeField BadgeClass.Gold)] = ["Gold"] ∧
    toString (BadgeClass.discriminant BadgeClass.Gold) = "1" ∧
    ("Gold" : String) ≠ "1" :=
  ⟨rfl, rfl, by decide⟩

/-- C3 amended: for every record field holding a unit-variant enum value,
the positional binding produced by bind_stmt is the variant declared NAME
as a plain string (serialize_unit_variant of the Binder calls
serialize_str on the variant name; the declared numeric discriminant is
never consulted on the write path). -/
theorem C3_unit_variant_binds_name (pre post : Record) (k : String) (c : BadgeClass) :
    bind_stmt (pre ++ (k, BadgeClass.serializeField c) :: post) =
      bind_stmt pre ++ c.variantName :: bind_stmt post := by
  simp [bind_stmt, BadgeClass.serializeField, bindValue]

/-- C5: for two records of the same shape (same ordered field names, as
records of one Rust type are), the binding vector of the second has
exactly as many entries as the CREATE statement has column definitions
and the INSERT statement has placeholders, both derived from the first. -/
theorem C5_binding_arity (r1 r2 : Record)
    (hshape : r1.map Prod.fst = r2.map Prod.fst) :
    (bind_stmt r2).length = (createColumns r1).length ∧
    (bind_stmt r2).length = (insertPlaceholders r1).length := by
  have hlen : r1.length = r2.length := by
    have hc := congrArg List.length hshape
    simpa using hc
  constructor
  · simp [bind_stmt, createColumns, tableKeys, tableValues, hlen]
  · simp [bind_stmt, insertPlaceholders, tableValues, hlen]

/-- Witness for C5: two one-field records of the same shape but different
value types. -/
theorem C5_witness :
    ([("@Id", FieldValue.vInt 1)] : Record).map Prod.fst =
      ([("@Id", FieldValue.vStr "x")] : Record).map Prod.fst ∧
    (bind_stmt [("@Id", FieldValue.vStr "x")]).length =
      (createColumns [("@Id", FieldValue.vInt 1)]).length :=
  ⟨by decide,
   (C5_binding_arity [("@Id", FieldValue.vInt 1)] [("@Id", FieldValue.vStr "x")]
     (by decide)).1⟩

/-- C6: any record with a field whose sanitized column name is literally
id yields a CREATE statement declaring that column INTEGER PRIMARY KEY
UNIQUE, whatever the runtime value of the field. -/
theorem C6_id_primary_key (r : Record) (k : String) (v : FieldValue)
    (hmem : (k, v) ∈ r) (hid : sanitizeKeyStr k = "id") :
    "id INTEGER PRIMARY KEY UNIQUE" ∈ createColumns r := by
  have hcc : createColumns r =
      r.map (fun kv => columnDef (sanitizeKeyStr kv.1) (serializeValue kv.2)) := by
    simp [createColumns, tableKeys, tableValues, List.zip_map']
  rw [hcc]
  refine List.mem_map.mpr ⟨(k, v), hmem, ?_⟩
  show columnDef (sanitizeKeyStr k) (serializeValue v) = "id INTEGER PRIMARY KEY UNIQUE"
  rw [hid]
  rfl

/-- Witness for C6: the Vote record type stores its id as a string, yet
the id column is still declared INTEGER PRIMARY KEY UNIQUE. -/
theorem C6_witness :
    (("@Id", FieldValue.vStr "abc") ∈
      ([("@Id", FieldValue.vStr "abc"), ("@PostId", FieldValue.vInt 7)] : Record)) ∧
    "id INTEGER PRIMARY KEY UNIQUE" ∈
      createColumns [("@Id", FieldValue.vStr "abc"), ("@PostId", FieldValue.vInt 7)] :=
  ⟨by decide,
   C6_id_primary_key [("@Id", FieldValue.vStr "abc"), ("@PostId", FieldValue.vInt 7)]
     "@Id" (FieldValue.vStr "abc") (by decide) (by decide)⟩

/-- C7: when a local file of exactly the remote content length already
exists, download returns Ok sending the request but neither creating the
file nor consuming the body stream; hence across a first full run and a
second run over the resulting file, the body is downloaded exactly once. -/
theorem C7_download_idempotent (url : String) (res : HttpResponse) (len : Nat)
    (hurl : url ≠ "") (hlen : res.contentLength = some len)
    (hbody : (streamAll res.chunks).2 = none)
    (hsize : (streamAll res.chunks).1.length = len) :
    download ⟨url, .ok res, some len⟩ = ⟨.ok (), 1, false, none⟩ ∧
    download ⟨url, .ok res, none⟩ = ⟨.ok (), 1, true, some (streamAll res.chunks).1⟩ ∧
    bodyGets (download ⟨url, .ok res, none⟩) +
      bodyGets (download ⟨url, .ok res, some (streamAll res.chunks).1.length⟩) = 1 := by
  have h1 : download ⟨url, .ok res, some len⟩ = ⟨.ok (), 1, false, none⟩ := by
    simp [download, hurl, hlen]
  have h2 : download ⟨url, .ok res, none⟩ =
      ⟨.ok (), 1, true, some (streamAll res.chunks).1⟩ := by
    simp [download, hurl, hlen, hbody]
  refine ⟨h1, h2, ?_⟩
  rw [hsize, h1, h2]
  rfl

/-- Witness for C7: a three-byte body in two chunks, resumed by size. -/
theorem C7_witness :
    download ⟨"http://x", .ok ⟨200, some 3, [.ok [1, 2], .ok [3]]⟩, some 3⟩ =
      ⟨.ok (), 1, false, none⟩ ∧
    bodyGets (download ⟨"http://x", .ok ⟨200, some 3, [.ok [1, 2], .ok [3]]⟩, none⟩) +
      bodyGets (download ⟨"http://x", .ok ⟨200, some 3, [.ok [1, 2], .ok [3]]⟩,
        some (streamAll [.ok [1, 2], .ok [3]]).1.length⟩) = 1 :=
  ⟨(C7_download_idempotent "http://x" ⟨200, some 3, [.ok [1, 2], .ok [3]]⟩ 3
      (by decide) rfl (by decide) (by decide)).1,
   (C7_download_idempotent "http://x" ⟨200, some 3, [.ok [1, 2], .ok [3]]⟩ 3
      (by decide) rfl (by decide) (by decide)).2.2⟩

/-- C8: if a file already exists at an entry destination with size equal
to the entry declared size, the per-entry extraction is skipped and the
filesystem, in particular that file, is unchanged. -/
theorem C8_unzip_entry_skip (dest : String) (fs : Fs) (e : SzEntry) (bytes : List Nat)
    (hfile : lookupFile fs (destPath dest e.name) = some bytes)
    (hsize : bytes.length = e.size) :
    unzipEntry dest fs e = fs ∧
    lookupFile (unzipEntry dest fs e) (destPath dest e.name) = some bytes := by
  have h : unzipEntry dest fs e = fs := by
    simp [unzipEntry, hfile, hsize]
  exact ⟨h, by rw [h, hfile]⟩

/-- C4: converting an at-PascalCase attribute name to its snake_case
column name with sanitize_key wipes the at-sign prefix and camel humps,
and mapping the result back with to_pascal_case restores the original
name exactly: the two column-name codecs are mutually inverse on such
names. -/
theorem C4_column_name_round_trip (x : List Char) (h : isPascalAttr x = true) :
    to_pascal_case (sanitize_key x) = x := by
  match x with
  | [] => exact absurd h (by simp [isPascalAttr])
  | [a] => exact absurd h (by simp [isPascalAttr])
  | a :: c :: cs =>
    simp only [isPascalAttr, Bool.and_eq_true, beq_iff_eq] at h
    obtain ⟨ha, hc, hall⟩ := h
    subst ha
    have hac : isAsciiAlnum c = true ∧ cs.all isAsciiAlnum = true := by
      simpa using hall
    have hfilter : List.filter (fun ch => ch != '@') ('@' :: c :: cs) = c :: cs := by
      rw [List.filter_cons_of_neg]
      · exact filter_at_of_alnum (c :: cs) hall
      · decide
    rw [show sanitize_key ('@' :: c :: cs) = sanitizeAux true (c :: cs) by
      rw [sanitize_key, hfilter]]
    rw [show sanitizeAux true (c :: cs) = asciiLower c :: sanitizeAux false cs by
      simp [sanitizeAux, hc]]
    rw [to_pascal_case]
    rw [toPascalAux_cons_ne true (asciiLower c) (sanitizeAux false cs)
      (asciiLower_ne_underscore c hc)]
    rw [pascal_sanitize_aux cs hac.2]
    simp [asciiUpper_asciiLower c hc]

/-- Witness for C4: the name at-UserId round-trips through user_id. -/
theorem C4_witness :
    isPascalAttr ("@UserId".data) = true ∧
    to_pascal_case (sanitize_key ("@UserId".data)) = "@UserId".data :=
  ⟨by decide, C4_column_name_round_trip ("@UserId".data) (by decide)⟩

/-- Witness for C8: an entry whose destination already holds a file of the
declared size, with different bytes than the archived content. -/
theorem C8_witness :
    lookupFile [("out/Posts.xml", [9, 9])] (destPath "out" "Posts.xml") = some [9, 9] ∧
    unzipEntry "out" [("out/Posts.xml", [9, 9])] ⟨"Posts.xml", 2, [1, 2]⟩ =
      [("out/Posts.xml", [9, 9])] :=
  ⟨by decide,
   (C8_unzip_entry_skip "out" [("out/Posts.xml", [9, 9])] ⟨"Posts.xml", 2, [1, 2]⟩
     [9, 9] (by decide) (by decide)).1⟩

/-- Terminal states are not active. -/
theorem isActive_false_of_isTerminal (s : State) (h : s.isTerminal = true) :
    s.isActive = false := by
  cases s <;> simp_all [State.isTerminal, State.isActive]

/-- getD into a replicate of Wait always yields Wait. -/
theorem getD_replicate_wait (J j : Nat) :
    (List.replicate J State.Wait).getD j State.Wait = State.Wait := by
  rw [List.getD_eq_getElem?_getD]
  rcases hg : (List.replicate J State.Wait)[j]? with _ | st
  · rfl
  · have hmem : st ∈ List.replicate J State.Wait := List.getElem?_mem hg
    rw [List.eq_of_mem_replicate hmem]
    rfl

/-- getD is unchanged by setting a different index. -/
theorem getD_set_ne (l : List State) (j i : Nat) (st d : State) (h : j ≠ i) :
    (l.set j st).getD i d = l.getD i d := by
  rw [List.getD_eq_getElem?_getD, List.getD_eq_getElem?_getD, List.getElem?_set_ne h]

/-- The initial scheduler state satisfies the invariant. -/
theorem schedInv_init (N J : Nat) : SchedInv N (initSched J) := by
  refine ⟨?_, ?_, ?_, ?_, ?_, ?_⟩ <;> dsimp only [initSched]
  · simp
  · intro j hj
    simp at hj
  · intro j hj
    exact getD_replicate_wait J j
  · intro j hj
    omega
  · simp
  · intro hr
    cases hr

/-- The scheduler invariant is preserved by every step. -/
theorem schedInv_step (N : Nat) (s t : Sched) (hinv : SchedInv N s)
    (hstep : SchedStep N s t) : SchedInv N t := by
  obtain ⟨hA, hB, hC, hD, hE, hF⟩ := hinv
  cases hstep with
  | spawn h1 h2 h3 =>
    have hnot : s.nextIdx ∉ s.inFlight := fun hmem => absurd (hB _ hmem) (by omega)
    refine ⟨?_, ?_, ?_, ?_, ?_, ?_⟩ <;> dsimp only
    · intro hN
      rw [Finset.card_insert_of_not_mem hnot]
      have hcard := hA hN
      rcases h2 with h2 | h2 <;> omega
    · intro j hj
      rcases Finset.mem_insert.mp hj with h | h
      · omega
      · have := hB j h
        omega
    · intro j hj
      exact hC j (by omega)
    · intro j hjlt hjnot
      have hne : j ≠ s.nextIdx := fun he => hjnot (he ▸ Finset.mem_insert_self _ _)
      exact hD j (by omega) (fun hmem => hjnot (Finset.mem_insert_of_mem hmem))
    · omega
    · intro hr
      cases hr
  | work j st hj hterm hst =>
    have hjlt : j < s.nextIdx := hB j hj
    refine ⟨hA, hB, ?_, ?_, ?_, ?_⟩ <;> dsimp only
    · intro i hi
      rw [getD_set_ne s.jobs j i st State.Wait (by omega)]
      exact hC i hi
    · intro i hilt hinot
      have hne : j ≠ i := fun he => hinot (he ▸ hj)
      rw [getD_set_ne s.jobs j i st State.Wait hne]
      exact hD i hilt hinot
    · rw [List.length_set]
      exact hE
    · intro hr
      refine absurd hj ?_
      rw [(hF hr).2]
      simp
  | complete j hj hterm =>
    refine ⟨?_, ?_, hC, ?_, hE, ?_⟩ <;> dsimp only
    · intro hN
      exact le_trans (Finset.card_le_card (Finset.erase_subset j s.inFlight)) (hA hN)
    · intro i hi
      exact hB i (Finset.mem_of_mem_erase hi)
    · intro i hilt hinot
      by_cases hij : i = j
      · rw [hij]
        exact hterm
      · refine hD i hilt (fun hmem => hinot ?_)
        exact Finset.mem_erase.mpr ⟨hij, hmem⟩
    · intro hr
      refine absurd hj ?_
      rw [(hF hr).2]
      simp
  | ret h1 h2 h3 =>
    exact ⟨hA, hB, hC, hD, hE, fun _ => ⟨h1, h2⟩⟩

/-- Every state reachable from the initial one satisfies the invariant. -/
theorem schedInv_reaches (N J : Nat) (s : Sched)
    (h : SchedReaches N (initSched J) s) : SchedInv N s := by
  induction h with
  | refl => exact schedInv_init N J
  | tail t u hr hst ih => exact schedInv_step N t u ih hst

/-- Under the invariant, every active job index is an in-flight task. -/
theorem activeSet_subset_inFlight (N : Nat) (s : Sched) (hinv : SchedInv N s) :
    activeSet s ⊆ s.inFlight := by
  obtain ⟨hA, hB, hC, hD, hE, hF⟩ := hinv
  intro j hjmem
  simp only [activeSet, Finset.mem_filter, Finset.mem_range] at hjmem
  obtain ⟨hjlt, hjact⟩ := hjmem
  by_contra hnotin
  by_cases hlt : j < s.nextIdx
  · have hterm := hD j hlt hnotin
    rw [isActive_false_of_isTerminal _ hterm] at hjact
    cases hjact
  · have hwait := hC j (by omega)
    rw [hwait] at hjact
    cases hjact

/-- C9 counterexample: with concurrency bound zero (max_threads is a u8
flag, so zero is a real configuration) the len-equals-max_threads check
of the spawning loop never fires, so a job is spawned and becomes
active: the scheduler reaches a state whose active-job count exceeds the
bound, refuting the claim at N = 0, J = 1. -/
theorem C9_counterexample :
    SchedReaches 0 (initSched 1) ⟨[State.Downloading (0, 0)], {0}, 1, false⟩ ∧
    ¬ (activeSet ⟨[State.Downloading (0, 0)], {0}, 1, false⟩).card ≤ 0 := by
  constructor
  · refine SchedReaches.tail (initSched 1) ⟨[State.Wait], {0}, 1, false⟩ _ ?_ ?_
    · refine SchedReaches.tail (initSched 1) (initSched 1) _ (SchedReaches.refl _) ?_
      exact SchedStep.spawn (initSched 1) (by decide) (Or.inr rfl) rfl
    · exact SchedStep.work ⟨[State.Wait], {0}, 1, false⟩ 0 (State.Downloading (0, 0))
        (by decide) (by decide) (by decide)
  · decide

/-- C9 (amended): in every state the scheduler of main can reach with a
positive concurrency bound N, at most N jobs simultaneously hold a
non-Wait, non-terminal state (with bound zero the throttling check of
the loop never fires, so no bound is enforced), and for every bound the
scheduling block returns only after every job is Done or Error. -/
theorem C9_bounded_concurrency (N J : Nat) (s : Sched)
    (h : SchedReaches N (initSched J) s) :
    (1 ≤ N → (activeSet s).card ≤ N) ∧
    (s.returned = true → ∀ j, j < s.jobs.length →
      (s.jobs.getD j State.Wait).isTerminal = true) := by
  have hinv := schedInv_reaches N J s h
  obtain ⟨hA, hB, hC, hD, hE, hF⟩ := hinv
  constructor
  · intro hN
    exact le_trans
      (Finset.card_le_card (activeSet_subset_inFlight N s ⟨hA, hB, hC, hD, hE, hF⟩))
      (hA hN)
  · intro hr j hj
    obtain ⟨hnext, hempty⟩ := hF hr
    refine hD j (by omega) ?_
    rw [hempty]
    simp

/-- Witness for C9: the spec scenario of ten jobs under bound three. -/
theorem C9_witness :
    (1 ≤ 3 → (activeSet (initSched 10)).card ≤ 3) ∧
    ((initSched 10).returned = true → ∀ j, j < (initSched 10).jobs.length →
      ((initSched 10).jobs.getD j State.Wait).isTerminal = true) :=
  C9_bounded_concurrency 3 10 (initSched 10) (SchedReaches.refl (initSched 10))

end Dlrs
